import Mathlib

/-!
Shallow embedding of `src/actor.ts`: a message-driven state container
("actor") with linear undo/redo history, subscriber notification and a
pluggable diff engine (immer's `produceWithPatches` / `applyPatches`).

Modelling choices, each traceable to the source:

* `State`, `Patch`, `Callback`, `Payload`, `Err` are type parameters: the
  actor code never inspects states or patches, callbacks are compared only
  by identity (`!==`), and handler exceptions are opaque values.
* The diff engine is the external collaborator (`immer`); it is embedded as
  a structure of two functions with the same shapes the actor code uses:
  `produceWithPatches` returns `(newState, patches, inversePatches)` and may
  propagate an exception of the mutator, `applyPatches` returns
  `(newState, reversePatches)` as destructured at the call sites in
  `undo`/`redo`.  Its required behaviour (round-tripping) is stated as
  separate `Prop`s and taken as hypotheses where a theorem needs it.
* TS arrays used as stacks (`push`/`pop` at the end) become lists whose
  head is the stack top; the subscriber array, where iteration order
  matters, becomes a list in insertion order (`subscribe` appends at the
  end, notification maps over the list front to back, exactly `forEach`).
* A method that in TS mutates `this` becomes a function returning the new
  actor value; the notifications performed are returned alongside as the
  list of `(callback, argument)` invocations, and a thrown handler
  exception is returned as `some e` with the actor unchanged (in TS a
  throw inside `produceWithPatches` propagates before any field of the
  actor object is assigned).
* The fields `parent` and `children` and the tree operations
  (`createChild`, `getParent`, `getId`) play no part in any property below
  and are omitted; `onStart` is a no-op in the base class, so construction
  just seeds the fields.  The unused `Change` interface of the source is
  dead code and not modelled.
-/

namespace ActorModel

/-- `BaseMessage` of `actor.ts`: a type tag, an optional schema version and
handler-specific payload. -/
structure BaseMessage (Payload : Type) where
  type : String
  version : Option Nat
  payload : Payload
  deriving DecidableEq

/-- One entry of the history stacks: the state reached by a transition and
the patch set that rewinds that transition (`{ state, inversePatches }`). -/
structure Checkpoint (State Patch : Type) where
  state : State
  inversePatches : List Patch
  deriving DecidableEq

/-- `History<T>` of `actor.ts`: two stacks of checkpoints, head = top. -/
structure History (State Patch : Type) where
  past : List (Checkpoint State Patch)
  future : List (Checkpoint State Patch)
  deriving DecidableEq

/-- The persistent fields of an `Actor` touched by the claims: `id`,
`state`, `subscribers`, `history` (tree wiring omitted, see header). -/
structure Actor (State Patch Callback : Type) where
  id : String
  state : State
  subscribers : List Callback
  history : History State Patch
  deriving DecidableEq

/-- The external diff engine (immer) with the interface shapes the actor
code consumes: `produceWithPatches` runs a (possibly throwing) mutator and
on success yields the new state plus forward and inverse patch sets;
`applyPatches` replays a patch set and also yields the reversing patch
set, as destructured in `undo`/`redo`. -/
structure DiffEngine (State Patch Err : Type) where
  produceWithPatches : State → (State → Except Err State) → Except Err (State × List Patch × List Patch)
  applyPatches : State → List Patch → State × List Patch

/-- The two abstract members a concrete actor class supplies:
`isMessageTypeValid` and `handleMessage` (the handler's net effect on the
draft, a throw modelled as `Except.error`). -/
structure Behavior (State Payload Err : Type) where
  isMessageTypeValid : String → Bool
  handleMessage : BaseMessage Payload → State → Except Err State

/-- Diff-engine law (spec of the collaborator): replaying the reverse
patch set returned by `applyPatches` on its result restores the input. -/
def ApplyInverts {State Patch Err : Type} (E : DiffEngine State Patch Err) : Prop :=
  ∀ (s : State) (ps : List Patch),
    (E.applyPatches (E.applyPatches s ps).1 (E.applyPatches s ps).2).1 = s

/-- Diff-engine law: applying the inverse patches returned by a successful
`produceWithPatches` to the produced state restores the input state. -/
def ProduceInverts {State Patch Err : Type} (E : DiffEngine State Patch Err) : Prop :=
  ∀ (s : State) (f : State → Except Err State) (ns : State) (ps ip : List Patch),
    E.produceWithPatches s f = Except.ok (ns, ps, ip) → (E.applyPatches ns ip).1 = s

variable {State Patch Callback Payload Err : Type}

/-- The constructor: seeds `id` and `state`, empty subscribers and history
(`onStart` of the base class is a no-op). -/
def Actor.create (i : String) (initialState : State) : Actor State Patch Callback :=
  ⟨i, initialState, [], ⟨[], []⟩⟩

/-- `notifySubscribers`: the invocations performed, in array order, each
receiving the current state. -/
def notifySubscribers (a : Actor State Patch Callback) : List (Callback × State) :=
  a.subscribers.map fun c => (c, a.state)

/-- `subscribe`: appends the callback to the subscriber array. -/
def subscribe (a : Actor State Patch Callback) (callback : Callback) :
    Actor State Patch Callback :=
  { a with subscribers := a.subscribers ++ [callback] }

/-- The capability returned by `subscribe`: filters out every subscriber
identical (`!==`) to the callback. -/
def unsubscribe [DecidableEq Callback] (a : Actor State Patch Callback) (callback : Callback) :
    Actor State Patch Callback :=
  { a with subscribers := a.subscribers.filter fun s => s != callback }

/-- `processMessage`: run `produceWithPatches` on the current state with
the handler as mutator; on success commit the new state, push
`{ state: newState, inversePatches }` onto `past` (the state field is
written after `this.state = newState`), clear `future`, notify.  On a
handler throw nothing is committed and the exception is surfaced. -/
def processMessage (E : DiffEngine State Patch Err) (B : Behavior State Payload Err)
    (message : BaseMessage Payload) (a : Actor State Patch Callback) :
    Actor State Patch Callback × List (Callback × State) × Option Err :=
  match E.produceWithPatches a.state (fun draft => B.handleMessage message draft) with
  | Except.error e => (a, [], some e)
  | Except.ok (newState, _patches, inversePatches) =>
    let a1 : Actor State Patch Callback :=
      { a with
        state := newState
        history := ⟨⟨newState, inversePatches⟩ :: a.history.past, []⟩ }
    (a1, notifySubscribers a1, none)

/-- `sendMessage`: validate the type tag; unknown types are dropped after a
diagnostic (no state change, no notification, no exception). -/
def sendMessage (E : DiffEngine State Patch Err) (B : Behavior State Payload Err)
    (message : BaseMessage Payload) (a : Actor State Patch Callback) :
    Actor State Patch Callback × List (Callback × State) × Option Err :=
  if B.isMessageTypeValid message.type then processMessage E B message a
  else (a, [], none)

/-- `undo`: no-op on empty `past`; otherwise pop the top checkpoint, apply
its inverse patches to the current state, push the pre-call state together
with the reversing patches onto `future`, commit, notify. -/
def undo (E : DiffEngine State Patch Err) (a : Actor State Patch Callback) :
    Actor State Patch Callback × List (Callback × State) :=
  match a.history.past with
  | [] => (a, [])
  | cp :: rest =>
    let p := E.applyPatches a.state cp.inversePatches
    let a1 : Actor State Patch Callback :=
      { a with
        state := p.1
        history := ⟨rest, ⟨a.state, p.2⟩ :: a.history.future⟩ }
    (a1, notifySubscribers a1)

/-- `redo`: mirror of `undo`; note the checkpoint pushed onto `past` reads
`this.state` before the assignment, i.e. it records the pre-redo state. -/
def redo (E : DiffEngine State Patch Err) (a : Actor State Patch Callback) :
    Actor State Patch Callback × List (Callback × State) :=
  match a.history.future with
  | [] => (a, [])
  | cp :: rest =>
    let p := E.applyPatches a.state cp.inversePatches
    let a1 : Actor State Patch Callback :=
      { a with
        state := p.1
        history := ⟨⟨a.state, p.2⟩ :: a.history.past, rest⟩ }
    (a1, notifySubscribers a1)

/-- The actor value after a `sendMessage` call (unchanged when the handler
threw, exactly as the TS object is left unchanged by a propagating throw). -/
def dispatchA (E : DiffEngine State Patch Err) (B : Behavior State Payload Err)
    (message : BaseMessage Payload) (a : Actor State Patch Callback) :
    Actor State Patch Callback :=
  (sendMessage E B message a).1

/-- Dispatching a list of messages in order. -/
def dispatchList (E : DiffEngine State Patch Err) (B : Behavior State Payload Err)
    (msgs : List (BaseMessage Payload)) (a : Actor State Patch Callback) :
    Actor State Patch Callback :=
  msgs.foldl (fun acc m => dispatchA E B m acc) a

/-- The actor value after an `undo` call. -/
def undoA (E : DiffEngine State Patch Err) (a : Actor State Patch Callback) :
    Actor State Patch Callback :=
  (undo E a).1

/-- The actor value after a `redo` call. -/
def redoA (E : DiffEngine State Patch Err) (a : Actor State Patch Callback) :
    Actor State Patch Callback :=
  (redo E a).1

/-- `n` consecutive `undo()` calls. -/
def undoN (E : DiffEngine State Patch Err) (n : Nat) (a : Actor State Patch Callback) :
    Actor State Patch Callback :=
  (undoA E)^[n] a

/-- `n` consecutive `redo()` calls. -/
def redoN (E : DiffEngine State Patch Err) (n : Nat) (a : Actor State Patch Callback) :
    Actor State Patch Callback :=
  (redoA E)^[n] a

/-- Registering a list of callbacks in order. -/
def subscribeAll (a : Actor State Patch Callback) (cs : List Callback) :
    Actor State Patch Callback :=
  cs.foldl subscribe a

/-- The state obtained by rewinding every checkpoint of a past stack in
turn from a given current state (specification device for round trips). -/
def rewound (E : DiffEngine State Patch Err) : State → List (Checkpoint State Patch) → State
  | s, [] => s
  | s, cp :: rest => rewound E (E.applyPatches s cp.inversePatches).1 rest

/-!
A concrete instantiation used for witnesses and counterexamples: states
are integers, a patch replaces the whole state with a recorded value (the
degenerate but law-abiding case of immer's root-path `replace` patch),
callbacks are numbered identities, handler exceptions carry no data.
-/

/-- Concrete state type for witnesses: an integer counter. -/
abbrev CState : Type := Int

/-- Concrete patch: replace the root value with the carried integer. -/
abbrev CPatch : Type := Int

/-- Concrete exception type. -/
abbrev CErr : Type := Unit

/-- Concrete callback identity. -/
abbrev CCb : Type := Nat

/-- Concrete `applyPatches`: replaying replace-at-root patches in order
lands on the last one; the reversing patch set restores the input. -/
def cApply (s : CState) (ps : List CPatch) : CState × List CPatch :=
  if ps.isEmpty then (s, []) else (ps.foldl (fun _ v => v) s, [s])

/-- Concrete `produceWithPatches`: runs the mutator; an unchanged result
yields empty patch sets, a changed one a single replace-at-root patch each
way. -/
def cProduce (s : CState) (f : CState → Except CErr CState) :
    Except CErr (CState × List CPatch × List CPatch) :=
  match f s with
  | Except.error e => Except.error e
  | Except.ok s1 => Except.ok (s1, if s1 = s then ([], []) else ([s1], [s]))

/-- The concrete diff engine. -/
def cE : DiffEngine CState CPatch CErr := ⟨cProduce, cApply⟩

/-- Concrete behavior: recognizes only `"increment"` and adds one. -/
def cB : Behavior CState Unit CErr :=
  ⟨fun t => t == "increment", fun _ s => Except.ok (s + 1)⟩

/-- A behavior whose handler performs no edits on the draft. -/
def cNoopB : Behavior CState Unit CErr :=
  ⟨fun t => t == "increment", fun _ s => Except.ok s⟩

/-- A behavior whose handler throws on every message. -/
def cBadB : Behavior CState Unit CErr :=
  ⟨fun t => t == "increment", fun _ _ => Except.error ()⟩

/-- The recognized concrete message. -/
def cInc : BaseMessage Unit := ⟨"increment", none, ()⟩

/-- A message of unknown type. -/
def cBogus : BaseMessage Unit := ⟨"bogus", none, ()⟩

/-- A freshly constructed concrete actor with state `0`. -/
def freshA : Actor CState CPatch CCb := Actor.create "root" 0

/-- The fresh actor after one `increment` dispatch: state `1`, one past
checkpoint, empty future. -/
def demoA : Actor CState CPatch CCb := dispatchA cE cB cInc freshA

/-- `demoA` after one `undo`: state `0`, empty past, one future entry. -/
def demoU : Actor CState CPatch CCb := undoA cE demoA

/-- `demoA` with a duplicate subscription of callback `7`. -/
def demoDup : Actor CState CPatch CCb := subscribe (subscribe demoA 7) 7

/-- `demoA` with a single subscription of callback `7`. -/
def demoS : Actor CState CPatch CCb := subscribe demoA 7

/-! ### Laws of the concrete diff engine -/

/-- The concrete engine satisfies the `applyPatches` round-trip law. -/
lemma cApply_inverts : ApplyInverts cE := by
  intro s ps
  cases ps with
  | nil => rfl
  | cons v rest => simp [cE, cApply]

/-- The concrete engine satisfies the `produceWithPatches` round-trip law. -/
lemma cProduce_inverts : ProduceInverts cE := by
  intro s f ns ps ip h
  cases hf : f s with
  | error e =>
    simp only [cE, cProduce, hf] at h
    cases h
  | ok s1 =>
    simp only [cE, cProduce, hf] at h
    by_cases hs : s1 = s
    · rw [if_pos hs] at h
      cases h
      simp [cE, cApply, hs]
    · rw [if_neg hs] at h
      cases h
      simp [cE, cApply]

/-! ### Unfolding lemmas for the operations -/

/-- `undo` on an empty past stack is a no-op. -/
lemma undoA_past_nil (E : DiffEngine State Patch Err) (a : Actor State Patch Callback)
    (h : a.history.past = []) : undoA E a = a := by
  obtain ⟨i, s, subs, ⟨past, fut⟩⟩ := a
  have h2 : past = [] := h
  subst h2
  rfl

/-- `undo` on a non-empty past stack, in terms of the top checkpoint. -/
lemma undoA_past_cons (E : DiffEngine State Patch Err) (a : Actor State Patch Callback)
    (cp : Checkpoint State Patch) (rest : List (Checkpoint State Patch))
    (h : a.history.past = cp :: rest) :
    undoA E a =
      { a with
        state := (E.applyPatches a.state cp.inversePatches).1
        history := ⟨rest,
          ⟨a.state, (E.applyPatches a.state cp.inversePatches).2⟩ :: a.history.future⟩ } := by
  obtain ⟨i, s, subs, ⟨past, fut⟩⟩ := a
  have h2 : past = cp :: rest := h
  subst h2
  rfl

/-- `redo` on an empty future stack is a no-op. -/
lemma redoA_future_nil (E : DiffEngine State Patch Err) (a : Actor State Patch Callback)
    (h : a.history.future = []) : redoA E a = a := by
  obtain ⟨i, s, subs, ⟨past, fut⟩⟩ := a
  have h2 : fut = [] := h
  subst h2
  rfl

/-- `redo` on a non-empty future stack, in terms of the top checkpoint. -/
lemma redoA_future_cons (E : DiffEngine State Patch Err) (a : Actor State Patch Callback)
    (cp : Checkpoint State Patch) (rest : List (Checkpoint State Patch))
    (h : a.history.future = cp :: rest) :
    redoA E a =
      { a with
        state := (E.applyPatches a.state cp.inversePatches).1
        history := ⟨⟨a.state, (E.applyPatches a.state cp.inversePatches).2⟩ :: a.history.past,
          rest⟩ } := by
  obtain ⟨i, s, subs, ⟨past, fut⟩⟩ := a
  have h2 : fut = cp :: rest := h
  subst h2
  rfl

/-- A valid message type routes `sendMessage` to `processMessage`. -/
lemma sendMessage_valid (E : DiffEngine State Patch Err) (B : Behavior State Payload Err)
    (m : BaseMessage Payload) (a : Actor State Patch Callback)
    (hv : B.isMessageTypeValid m.type = true) :
    sendMessage E B m a = processMessage E B m a := by
  simp [sendMessage, hv]

/-- `processMessage` on a successful transition, fully computed. -/
lemma processMessage_ok (E : DiffEngine State Patch Err) (B : Behavior State Payload Err)
    (m : BaseMessage Payload) (a : Actor State Patch Callback)
    (ns : State) (ps ip : List Patch)
    (h : E.produceWithPatches a.state (fun draft => B.handleMessage m draft)
      = Except.ok (ns, ps, ip)) :
    processMessage E B m a =
      ({ a with state := ns, history := ⟨⟨ns, ip⟩ :: a.history.past, []⟩ },
        a.subscribers.map (fun c => (c, ns)), none) := by
  unfold processMessage
  rw [h]
  rfl

/-- `processMessage` on a throwing handler, fully computed. -/
lemma processMessage_err (E : DiffEngine State Patch Err) (B : Behavior State Payload Err)
    (m : BaseMessage Payload) (a : Actor State Patch Callback) (e : Err)
    (h : E.produceWithPatches a.state (fun draft => B.handleMessage m draft)
      = Except.error e) :
    processMessage E B m a = (a, [], some e) := by
  unfold processMessage
  rw [h]

/-- An unknown message type makes `sendMessage` return the actor unchanged
with no notifications and no exception. -/
lemma sendMessage_invalid (E : DiffEngine State Patch Err) (B : Behavior State Payload Err)
    (m : BaseMessage Payload) (a : Actor State Patch Callback)
    (hv : B.isMessageTypeValid m.type = false) :
    sendMessage E B m a = (a, [], none) := by
  simp [sendMessage, hv]

/-! ### Iterated undo/redo -/

/-- Peeling the first of `n + 1` undos. -/
lemma undoN_succ (E : DiffEngine State Patch Err) (n : Nat) (a : Actor State Patch Callback) :
    undoN E (n + 1) a = undoN E n (undoA E a) :=
  Function.iterate_succ_apply (undoA E) n a

/-- Peeling the last of `n + 1` redos. -/
lemma redoN_succ (E : DiffEngine State Patch Err) (n : Nat) (a : Actor State Patch Callback) :
    redoN E (n + 1) a = redoA E (redoN E n a) :=
  Function.iterate_succ_apply' (redoA E) n a

/-! ### Round-trip machinery -/

/-- One `undo` does not change the fully rewound state. -/
lemma rewound_undoA (E : DiffEngine State Patch Err) (a : Actor State Patch Callback) :
    rewound E (undoA E a).state (undoA E a).history.past
      = rewound E a.state a.history.past := by
  obtain ⟨i, s, subs, ⟨past, fut⟩⟩ := a
  cases past with
  | nil => rfl
  | cons cp rest => rfl

/-- One dispatch does not change the fully rewound state, given the
`produceWithPatches` round-trip law. -/
lemma rewound_dispatchA (E : DiffEngine State Patch Err) (B : Behavior State Payload Err)
    (hE : ProduceInverts E) (m : BaseMessage Payload) (a : Actor State Patch Callback) :
    rewound E (dispatchA E B m a).state (dispatchA E B m a).history.past
      = rewound E a.state a.history.past := by
  unfold dispatchA sendMessage
  by_cases hv : B.isMessageTypeValid m.type
  · rw [if_pos hv]
    cases hp : E.produceWithPatches a.state (fun draft => B.handleMessage m draft) with
    | error e => rw [processMessage_err E B m a e hp]
    | ok out =>
      obtain ⟨ns, ps, ip⟩ := out
      rw [processMessage_ok E B m a ns ps ip hp]
      show rewound E ns (⟨ns, ip⟩ :: a.history.past) = rewound E a.state a.history.past
      have hinv := hE a.state (fun draft => B.handleMessage m draft) ns ps ip hp
      simp only [rewound]
      rw [hinv]
  · rw [if_neg hv]

/-- `undo` shortens a non-empty past stack by exactly one entry. -/
lemma undoA_past_length (E : DiffEngine State Patch Err) (a : Actor State Patch Callback) :
    (undoA E a).history.past.length = a.history.past.length - 1 := by
  obtain ⟨i, s, subs, ⟨past, fut⟩⟩ := a
  cases past with
  | nil => rfl
  | cons cp rest => rfl

/-- Enough undos drain the past stack and land on the rewound state. -/
lemma undoN_drains (E : DiffEngine State Patch Err) :
    ∀ (n : Nat) (a : Actor State Patch Callback), a.history.past.length ≤ n →
      (undoN E n a).history.past = [] ∧
      (undoN E n a).state = rewound E a.state a.history.past := by
  intro n
  induction n with
  | zero =>
    intro a h
    have hp : a.history.past = [] := List.eq_nil_of_length_eq_zero (Nat.le_zero.mp h)
    refine ⟨hp, ?_⟩
    rw [hp]
    rfl
  | succ n ih =>
    intro a h
    rw [undoN_succ]
    have hlen : (undoA E a).history.past.length ≤ n := by
      rw [undoA_past_length]
      omega
    obtain ⟨h1, h2⟩ := ih (undoA E a) hlen
    exact ⟨h1, h2.trans (rewound_undoA E a)⟩

/-- One dispatch grows the past stack by at most one entry. -/
lemma dispatchA_past_length (E : DiffEngine State Patch Err) (B : Behavior State Payload Err)
    (m : BaseMessage Payload) (a : Actor State Patch Callback) :
    (dispatchA E B m a).history.past.length ≤ a.history.past.length + 1 := by
  unfold dispatchA sendMessage
  by_cases hv : B.isMessageTypeValid m.type
  · rw [if_pos hv]
    cases hp : E.produceWithPatches a.state (fun draft => B.handleMessage m draft) with
    | error e =>
      rw [processMessage_err E B m a e hp]
      exact Nat.le_succ _
    | ok out =>
      obtain ⟨ns, ps, ip⟩ := out
      rw [processMessage_ok E B m a ns ps ip hp]
      show (⟨ns, ip⟩ :: a.history.past : List (Checkpoint State Patch)).length
        ≤ a.history.past.length + 1
      simp
  · rw [if_neg hv]
    exact Nat.le_succ _

/-- Unfolding `dispatchList` on a cons cell. -/
lemma dispatchList_cons (E : DiffEngine State Patch Err) (B : Behavior State Payload Err)
    (m : BaseMessage Payload) (ms : List (BaseMessage Payload))
    (a : Actor State Patch Callback) :
    dispatchList E B (m :: ms) a = dispatchList E B ms (dispatchA E B m a) := rfl

/-- Dispatching a list grows the past stack by at most its length. -/
lemma dispatchList_past_length (E : DiffEngine State Patch Err)
    (B : Behavior State Payload Err) :
    ∀ (ms : List (BaseMessage Payload)) (a : Actor State Patch Callback),
      (dispatchList E B ms a).history.past.length ≤ a.history.past.length + ms.length := by
  intro ms
  induction ms with
  | nil =>
    intro a
    simp [dispatchList]
  | cons m ms ih =>
    intro a
    rw [dispatchList_cons]
    have h1 := ih (dispatchA E B m a)
    have h2 := dispatchA_past_length E B m a
    simp only [List.length_cons]
    omega

/-- Dispatching a list never changes the fully rewound state. -/
lemma dispatchList_rewound (E : DiffEngine State Patch Err) (B : Behavior State Payload Err)
    (hE : ProduceInverts E) :
    ∀ (ms : List (BaseMessage Payload)) (a : Actor State Patch Callback),
      rewound E (dispatchList E B ms a).state (dispatchList E B ms a).history.past
        = rewound E a.state a.history.past := by
  intro ms
  induction ms with
  | nil => intro a; rfl
  | cons m ms ih =>
    intro a
    rw [dispatchList_cons]
    exact (ih (dispatchA E B m a)).trans (rewound_dispatchA E B hE m a)

/-- Subscribing a list of callbacks appends them in order and leaves the
state and history untouched. -/
lemma subscribeAll_fields :
    ∀ (cs : List Callback) (a : Actor State Patch Callback),
      (subscribeAll a cs).subscribers = a.subscribers ++ cs ∧
      (subscribeAll a cs).state = a.state ∧
      (subscribeAll a cs).history = a.history := by
  intro cs
  induction cs with
  | nil =>
    intro a
    exact ⟨by simp [subscribeAll], rfl, rfl⟩
  | cons c cs ih =>
    intro a
    obtain ⟨h1, h2, h3⟩ := ih (subscribe a c)
    refine ⟨?_, h2, h3⟩
    show (subscribeAll (subscribe a c) cs).subscribers = a.subscribers ++ c :: cs
    rw [h1]
    simp [subscribe]

/-! ### Claims -/

/-- Claim C1 (amended): for `n` not exceeding `past.length`, `n` undos
followed by `n` redos restore exactly the current state, exactly the
future stack, the length of the past stack and all past checkpoints below
the top `n`; the top `n` checkpoints themselves are rebuilt by `redo` with
their `state` fields recording the pre-redo states, so they need not equal
the originals. -/
theorem undo_redo_roundtrip (E : DiffEngine State Patch Err) (hE : ApplyInverts E) :
    ∀ (n : Nat) (a : Actor State Patch Callback), n ≤ a.history.past.length →
      (redoN E n (undoN E n a)).state = a.state ∧
      (redoN E n (undoN E n a)).history.future = a.history.future ∧
      (redoN E n (undoN E n a)).history.past.length = a.history.past.length ∧
      List.drop n (redoN E n (undoN E n a)).history.past = List.drop n a.history.past := by
  intro n
  induction n with
  | zero =>
    intro a h
    exact ⟨rfl, rfl, rfl, rfl⟩
  | succ n ih =>
    intro a h
    rcases hpast : a.history.past with _ | ⟨cp, rest⟩
    · rw [hpast] at h
      simp at h
    · have hu := undoA_past_cons E a cp rest hpast
      have hlen : n ≤ (undoA E a).history.past.length := by
        rw [undoA_past_length, hpast]
        rw [hpast] at h
        simp only [List.length_cons] at h ⊢
        omega
      obtain ⟨ih1, ih2, ih3, ih4⟩ := ih (undoA E a) hlen
      have ih1' : (redoN E n (undoN E n (undoA E a))).state
          = (E.applyPatches a.state cp.inversePatches).1 := by rw [ih1, hu]
      have ih2' : (redoN E n (undoN E n (undoA E a))).history.future
          = ⟨a.state, (E.applyPatches a.state cp.inversePatches).2⟩ :: a.history.future := by
        rw [ih2, hu]
      have ih3' : (redoN E n (undoN E n (undoA E a))).history.past.length = rest.length := by
        rw [ih3, hu]
      have ih4' : List.drop n (redoN E n (undoN E n (undoA E a))).history.past
          = List.drop n rest := by rw [ih4, hu]
      rw [undoN_succ, redoN_succ]
      have hr := redoA_future_cons E (redoN E n (undoN E n (undoA E a)))
        ⟨a.state, (E.applyPatches a.state cp.inversePatches).2⟩ a.history.future ih2'
      rw [hr]
      refine ⟨?_, ?_, ?_, ?_⟩
      · simp only [ih1']
        exact hE a.state cp.inversePatches
      · rfl
      · simp only [List.length_cons, ih3', hpast]
      · simp only [List.drop_succ_cons, ih4', hpast]

/-- Claim C1 counterexample: on the concrete actor after one `increment`,
one undo followed by one redo restores the state but not the contents of
the past stack (the redone checkpoint records the pre-redo state `0`, the
original recorded `1`). -/
theorem undo_redo_not_exact :
    1 ≤ demoA.history.past.length ∧
    (redoN cE 1 (undoN cE 1 demoA)).state = demoA.state ∧
    (redoN cE 1 (undoN cE 1 demoA)).history.past ≠ demoA.history.past := by
  decide

/-- Claim C1 witness: the amended round trip evaluated on the concrete
actor after one `increment`, with `n = 1`. -/
theorem undo_redo_roundtrip_witness :
    (redoN cE 1 (undoN cE 1 demoA)).state = demoA.state ∧
    (redoN cE 1 (undoN cE 1 demoA)).history.future = demoA.history.future ∧
    (redoN cE 1 (undoN cE 1 demoA)).history.past.length = demoA.history.past.length ∧
    List.drop 1 (redoN cE 1 (undoN cE 1 demoA)).history.past
      = List.drop 1 demoA.history.past :=
  undo_redo_roundtrip cE cApply_inverts 1 demoA (by decide)

/-- Claim C2: dispatching any sequence of valid messages to a freshly
constructed actor and then undoing once per message restores the initial
state and empties the past stack. -/
theorem fresh_dispatch_undo_roundtrip (E : DiffEngine State Patch Err)
    (B : Behavior State Payload Err) (hE : ProduceInverts E) (i : String) (s0 : State)
    (msgs : List (BaseMessage Payload))
    (_hv : ∀ m ∈ msgs, B.isMessageTypeValid m.type = true) :
    (undoN E msgs.length
      (dispatchList E B msgs (Actor.create i s0 : Actor State Patch Callback))).state = s0 ∧
    (undoN E msgs.length
      (dispatchList E B msgs
        (Actor.create i s0 : Actor State Patch Callback))).history.past = [] := by
  have hlen : (dispatchList E B msgs
      (Actor.create i s0 : Actor State Patch Callback)).history.past.length ≤ msgs.length := by
    have h1 := dispatchList_past_length E B msgs (Actor.create i s0 : Actor State Patch Callback)
    have h0 : (Actor.create i s0 : Actor State Patch Callback).history.past.length = 0 := rfl
    omega
  obtain ⟨h1, h2⟩ := undoN_drains E msgs.length _ hlen
  refine ⟨?_, h1⟩
  rw [h2, dispatchList_rewound E B hE msgs]
  rfl

/-- Claim C2 witness: two `increment` dispatches on a fresh actor followed
by two undos return to state `0` with an empty past stack. -/
theorem fresh_dispatch_undo_roundtrip_witness :
    (undoN cE 2 (dispatchList cE cB [cInc, cInc]
      (Actor.create "root" 0 : Actor CState CPatch CCb))).state = 0 ∧
    (undoN cE 2 (dispatchList cE cB [cInc, cInc]
      (Actor.create "root" 0 : Actor CState CPatch CCb))).history.past = [] :=
  fresh_dispatch_undo_roundtrip cE cB cProduce_inverts "root" 0 [cInc, cInc] (by decide)

/-- Claim C4: on an actor with non-empty past, `undo()` then `redo()`
restores the state held immediately before the `undo()` call. -/
theorem undo_then_redo_restores_state (E : DiffEngine State Patch Err)
    (hE : ApplyInverts E) (a : Actor State Patch Callback)
    (h : a.history.past ≠ []) :
    (redoA E (undoA E a)).state = a.state := by
  rcases hpast : a.history.past with _ | ⟨cp, rest⟩
  · exact absurd hpast h
  · have hu := undoA_past_cons E a cp rest hpast
    have hfut : (undoA E a).history.future
        = ⟨a.state, (E.applyPatches a.state cp.inversePatches).2⟩ :: a.history.future := by
      rw [hu]
    have hus : (undoA E a).state = (E.applyPatches a.state cp.inversePatches).1 := by
      rw [hu]
    have hr := redoA_future_cons E (undoA E a)
      ⟨a.state, (E.applyPatches a.state cp.inversePatches).2⟩ a.history.future hfut
    rw [hr]
    simp only [hus]
    exact hE a.state cp.inversePatches

/-- Claim C4 witness: undo then redo on the concrete actor after one
`increment` lands back on state `1`. -/
theorem undo_then_redo_restores_state_witness :
    (redoA cE (undoA cE demoA)).state = demoA.state :=
  undo_then_redo_restores_state cE cApply_inverts demoA (by decide)

/-- Claim C3 counterexample: dispatch one `increment`, undo, redo; the
configuration is reachable, its past stack is non-empty, yet the top
checkpoint records state `0` while the current state is `1`. -/
theorem past_top_state_cex :
    (redoA cE (undoA cE demoA)).history.past ≠ [] ∧
    (redoA cE (undoA cE demoA)).history.past.head?.map Checkpoint.state
      ≠ some (redoA cE (undoA cE demoA)).state := by
  decide

/-- Claim C3 (amended): after a successful dispatch of a valid message the
top checkpoint of `past` records exactly the new current state, and `undo`
only pops `past` (leaving the lower checkpoints untouched); but `redo`
pushes a checkpoint recording the pre-redo state — the state it rewinds to
— so the invariant fails after a state-changing redo. -/
theorem past_top_state_amended (E : DiffEngine State Patch Err)
    (B : Behavior State Payload Err) (m : BaseMessage Payload)
    (a b : Actor State Patch Callback) :
    (B.isMessageTypeValid m.type = true → (sendMessage E B m a).2.2 = none →
      (sendMessage E B m a).1.history.past.head?.map Checkpoint.state
        = some (sendMessage E B m a).1.state) ∧
    (undoA E a).history.past = a.history.past.tail ∧
    (b.history.future ≠ [] →
      (redoA E b).history.past.head?.map Checkpoint.state = some b.state) := by
  refine ⟨?_, ?_, ?_⟩
  · intro hv hs
    rw [sendMessage_valid E B m a hv] at hs ⊢
    cases hp : E.produceWithPatches a.state (fun draft => B.handleMessage m draft) with
    | error e =>
      rw [processMessage_err E B m a e hp] at hs
      simp at hs
    | ok out =>
      obtain ⟨ns, ps, ip⟩ := out
      rw [processMessage_ok E B m a ns ps ip hp]
      rfl
  · rcases hpast : a.history.past with _ | ⟨cp, rest⟩
    · rw [undoA_past_nil E a hpast, hpast]
      rfl
    · rw [undoA_past_cons E a cp rest hpast]
      rfl
  · intro hf
    rcases hfut : b.history.future with _ | ⟨cp, rest⟩
    · exact absurd hfut hf
    · rw [redoA_future_cons E b cp rest hfut]
      rfl

/-- Claim C3 witness: the amended statement evaluated on the concrete
actor after one `increment` (for dispatch and undo) and on its undone form
with a non-empty future (for redo). -/
theorem past_top_state_amended_witness :
    ((sendMessage cE cB cInc demoA).1.history.past.head?.map Checkpoint.state
      = some (sendMessage cE cB cInc demoA).1.state) ∧
    (undoA cE demoA).history.past = demoA.history.past.tail ∧
    (redoA cE demoU).history.past.head?.map Checkpoint.state = some demoU.state := by
  obtain ⟨h1, h2, h3⟩ := past_top_state_amended cE cB cInc demoA demoU
  exact ⟨h1 (by decide) (by decide), h2, h3 (by decide)⟩

/-- Claim C5: a successful dispatch of a valid message leaves `future`
empty, and a subsequent `redo()` is a no-op (same actor, no
notifications). -/
theorem dispatch_clears_future (E : DiffEngine State Patch Err)
    (B : Behavior State Payload Err) (m : BaseMessage Payload)
    (a : Actor State Patch Callback)
    (hv : B.isMessageTypeValid m.type = true)
    (hs : (sendMessage E B m a).2.2 = none) :
    (sendMessage E B m a).1.history.future = [] ∧
    redo E (sendMessage E B m a).1 = ((sendMessage E B m a).1, []) := by
  rw [sendMessage_valid E B m a hv] at hs ⊢
  cases hp : E.produceWithPatches a.state (fun draft => B.handleMessage m draft) with
  | error e =>
    rw [processMessage_err E B m a e hp] at hs
    simp at hs
  | ok out =>
    obtain ⟨ns, ps, ip⟩ := out
    rw [processMessage_ok E B m a ns ps ip hp]
    exact ⟨rfl, rfl⟩

/-- Claim C5 witness: dispatching `increment` on the undone concrete actor
(non-empty future) clears `future` and makes `redo` a no-op. -/
theorem dispatch_clears_future_witness :
    (sendMessage cE cB cInc demoU).1.history.future = [] ∧
    redo cE (sendMessage cE cB cInc demoU).1 = ((sendMessage cE cB cInc demoU).1, []) :=
  dispatch_clears_future cE cB cInc demoU (by decide) (by decide)

/-- Claim C6: a handler that throws while a transition for a valid message
is computed makes `sendMessage` surface exactly that exception with the
actor (state, past, future, subscribers) unchanged and nobody notified. -/
theorem handler_error_atomic (E : DiffEngine State Patch Err)
    (B : Behavior State Payload Err) (m : BaseMessage Payload)
    (a : Actor State Patch Callback) (e : Err)
    (hv : B.isMessageTypeValid m.type = true)
    (he : E.produceWithPatches a.state (fun draft => B.handleMessage m draft)
      = Except.error e) :
    sendMessage E B m a = (a, [], some e) := by
  rw [sendMessage_valid E B m a hv]
  exact processMessage_err E B m a e he

/-- Claim C6 witness: the always-throwing behavior on the concrete actor
propagates the exception and changes nothing. -/
theorem handler_error_atomic_witness :
    sendMessage cE cBadB cInc demoA = (demoA, [], some ()) :=
  handler_error_atomic cE cBadB cInc demoA () (by decide) rfl

/-- Claim C7: a message whose type is not recognized leaves the actor
(state, past, future, subscribers) unchanged, notifies nobody and raises
nothing. -/
theorem unknown_message_inert (E : DiffEngine State Patch Err)
    (B : Behavior State Payload Err) (m : BaseMessage Payload)
    (a : Actor State Patch Callback)
    (hv : B.isMessageTypeValid m.type = false) :
    sendMessage E B m a = (a, [], none) :=
  sendMessage_invalid E B m a hv

/-- Claim C7 witness: the unknown `bogus` message on the concrete actor. -/
theorem unknown_message_inert_witness :
    sendMessage cE cB cBogus demoA = (demoA, [], none) :=
  unknown_message_inert cE cB cBogus demoA (by decide)

/-- Claim C8: on a successful dispatch of a valid message, the callbacks
registered beforehand are each invoked exactly once, in registration
order, with the post-transition state. -/
theorem subscriber_fanout (E : DiffEngine State Patch Err)
    (B : Behavior State Payload Err) (m : BaseMessage Payload)
    (a : Actor State Patch Callback) (cs : List Callback)
    (h0 : a.subscribers = [])
    (hv : B.isMessageTypeValid m.type = true)
    (hs : (sendMessage E B m (subscribeAll a cs)).2.2 = none) :
    (sendMessage E B m (subscribeAll a cs)).2.1
      = cs.map (fun c => (c, (sendMessage E B m (subscribeAll a cs)).1.state)) := by
  rw [sendMessage_valid E B m _ hv] at hs ⊢
  cases hp : E.produceWithPatches (subscribeAll a cs).state
      (fun draft => B.handleMessage m draft) with
  | error e =>
    rw [processMessage_err E B m _ e hp] at hs
    simp at hs
  | ok out =>
    obtain ⟨ns, ps, ip⟩ := out
    rw [processMessage_ok E B m _ ns ps ip hp]
    show (subscribeAll a cs).subscribers.map (fun c => (c, ns))
      = cs.map (fun c => (c, ns))
    obtain ⟨hsub, -, -⟩ := subscribeAll_fields cs a
    rw [hsub, h0]
    simp

/-- Claim C8 witness: callbacks `5` and `9` registered on the fresh actor
each receive exactly one notification, in order, with state `1`. -/
theorem subscriber_fanout_witness :
    (sendMessage cE cB cInc (subscribeAll freshA [5, 9])).2.1
      = [5, 9].map (fun c =>
          (c, (sendMessage cE cB cInc (subscribeAll freshA [5, 9])).1.state)) :=
  subscriber_fanout cE cB cInc freshA [5, 9] (by decide) (by decide) (by decide)

/-- Claim C9: every successful dispatch of a valid message pushes exactly
one checkpoint, clears `future`, notifies every subscriber with the
post-transition state and raises nothing — also when the handler performs
no edits (the witness instantiates a no-edit handler). -/
theorem valid_dispatch_full_effects (E : DiffEngine State Patch Err)
    (B : Behavior State Payload Err) (m : BaseMessage Payload)
    (a : Actor State Patch Callback) (ns : State) (ps ip : List Patch)
    (hv : B.isMessageTypeValid m.type = true)
    (hp : E.produceWithPatches a.state (fun draft => B.handleMessage m draft)
      = Except.ok (ns, ps, ip)) :
    (sendMessage E B m a).1.state = ns ∧
    (sendMessage E B m a).1.history.past = ⟨ns, ip⟩ :: a.history.past ∧
    (sendMessage E B m a).1.history.future = [] ∧
    (sendMessage E B m a).2.1 = a.subscribers.map (fun c => (c, ns)) ∧
    (sendMessage E B m a).2.2 = none := by
  rw [sendMessage_valid E B m a hv, processMessage_ok E B m a ns ps ip hp]
  exact ⟨rfl, rfl, rfl, rfl, rfl⟩

/-- Claim C9 witness: a no-edit handler on the subscribed concrete actor
still pushes one (empty) checkpoint, clears `future` and notifies with the
unchanged state `1`. -/
theorem valid_dispatch_full_effects_witness :
    (sendMessage cE cNoopB cInc demoS).1.state = 1 ∧
    (sendMessage cE cNoopB cInc demoS).1.history.past = ⟨1, []⟩ :: demoS.history.past ∧
    (sendMessage cE cNoopB cInc demoS).1.history.future = [] ∧
    (sendMessage cE cNoopB cInc demoS).2.1 = demoS.subscribers.map (fun c => (c, 1)) ∧
    (sendMessage cE cNoopB cInc demoS).2.2 = none :=
  valid_dispatch_full_effects cE cNoopB cInc demoS 1 [] [] (by decide) rfl

/-- Counting a pair in a constant-second-component map counts the first
component. -/
lemma count_map_pair [DecidableEq Callback] [DecidableEq State]
    (l : List Callback) (s : State) (c : Callback) :
    (l.map (fun x => (x, s))).count (c, s) = l.count c := by
  induction l with
  | nil => rfl
  | cons x xs ih =>
    simp only [List.map_cons, List.count_cons, ih]
    by_cases hxc : x = c
    · simp [hxc]
    · simp [hxc]

/-- Claim C10: on a successful dispatch a callback registered several
times is notified once per registration, while one invocation of the
unsubscribe capability removes every registration of that callback. -/
theorem unsubscribe_by_identity [DecidableEq Callback] [DecidableEq State]
    (E : DiffEngine State Patch Err) (B : Behavior State Payload Err)
    (m : BaseMessage Payload) (a : Actor State Patch Callback) (c : Callback)
    (hv : B.isMessageTypeValid m.type = true)
    (hs : (sendMessage E B m a).2.2 = none) :
    ((sendMessage E B m a).2.1).count (c, (sendMessage E B m a).1.state)
      = a.subscribers.count c ∧
    (unsubscribe a c).subscribers.count c = 0 := by
  constructor
  · rw [sendMessage_valid E B m a hv] at hs ⊢
    cases hp : E.produceWithPatches a.state (fun draft => B.handleMessage m draft) with
    | error e =>
      rw [processMessage_err E B m a e hp] at hs
      simp at hs
    | ok out =>
      obtain ⟨ns, ps, ip⟩ := out
      rw [processMessage_ok E B m a ns ps ip hp]
      show (a.subscribers.map (fun x => (x, ns))).count (c, ns) = a.subscribers.count c
      exact count_map_pair a.subscribers ns c
  · show (a.subscribers.filter (fun s => s != c)).count c = 0
    rw [List.count_eq_zero]
    intro hc
    rw [List.mem_filter] at hc
    simp at hc

/-- Claim C10 witness: callback `7` registered twice is notified twice,
and one unsubscribe removes both registrations. -/
theorem unsubscribe_by_identity_witness :
    ((sendMessage cE cB cInc demoDup).2.1).count
        (7, (sendMessage cE cB cInc demoDup).1.state)
      = demoDup.subscribers.count 7 ∧
    (unsubscribe demoDup 7).subscribers.count 7 = 0 :=
  unsubscribe_by_identity cE cB cInc demoDup 7 (by decide) (by decide)

end ActorModel
